import Mathlib

/-!
Verification development for the CC_Validator_Automation repository.

The definitions below are shallow embeddings of the TypeScript sources:
  * `src/lib/luhn.ts` — the credit-card validator (`CreditCardValidator`,
    `luhnCheck`, `validateTypeAndLength`, `luhn_validate`);
  * `src/lib/csvUtils.ts` — `parseCSV`, `parseCSVLine`, `generateCSV`;
  * `src/lib/imageUtils.ts` — the redaction-box splitting half of
    `applyRedactionToSeparateImages`;
  * `src/pages/Index.tsx` (OCR validator page) — `normalizeForComparison`,
    `normalizeCustomerName`, `findMatchingFolder`, and the row-reconciliation
    / per-customer orchestration logic of `processImages`;
  * `src/lib/ocrApi.ts` — the result post-processing of `sendToOCR`.

Strings are modelled by Lean `String`/`List Char`; JavaScript numbers that
carry pixel coordinates are modelled by `Rat`; the remote HTTP calls are
modelled as oracle functions supplied as input, with `Option` encoding
success versus a thrown error.
-/

namespace CCV

/-! ## JavaScript string helpers -/

/-- Whitespace as matched by the JavaScript regex `\s` and by `trim`
(restricted to the ASCII range, which is all the repository ever feeds it). -/
def isWS (c : Char) : Bool :=
  c = ' ' || c = '\t' || c = '\n' || c = '\r' || c = '\x0b' || c = '\x0c'

/-- `String.prototype.trim` on a character list. -/
def trimChars (l : List Char) : List Char :=
  ((l.dropWhile isWS).reverse.dropWhile isWS).reverse

/-- `String.prototype.trim`. -/
def jsTrim (s : String) : String :=
  String.mk (trimChars s.toList)

/-- Collapse each maximal run of whitespace to a single space:
the replacement `.replace(/\s+/g, ' ')`. -/
def collapseWS : List Char → List Char
  | [] => []
  | [c] => if isWS c then [' '] else [c]
  | c₁ :: c₂ :: rest =>
    if isWS c₁ && isWS c₂ then collapseWS (c₂ :: rest)
    else (if isWS c₁ then ' ' else c₁) :: collapseWS (c₂ :: rest)

/-- `.replace(/[_-]/g, ' ')` on one character. -/
def underscoreDashToSpace (c : Char) : Char :=
  if c = '_' || c = '-' then ' ' else c

/-- `normalizeForComparison` from `Index.tsx`: lower-case, turn `_`/`-` into
spaces, collapse whitespace runs, trim. -/
def normalizeForComparison (s : String) : String :=
  if s = "" then ""
  else
    String.mk (trimChars (collapseWS ((s.toList.map Char.toLower).map underscoreDashToSpace)))

/-- `normalizeCustomerName` from `Index.tsx`: upper-case, turn `_`/`-` into
spaces, collapse whitespace runs, drop `.` and `,`, trim. -/
def normalizeCustomerName (s : String) : String :=
  if s = "" then ""
  else
    String.mk (trimChars
      ((collapseWS ((s.toList.map Char.toUpper).map underscoreDashToSpace)).filter
        (fun c => !(c = '.' || c = ','))))

/-- `String.prototype.includes`: `sub` occurs contiguously inside `l`. -/
def containsSub : List Char → List Char → Bool
  | l, sub =>
    sub.isPrefixOf l ||
      (match l with
       | [] => false
       | _ :: t => containsSub t sub)

/-! ## Card validator (`src/lib/luhn.ts`) -/

/-- `String(rawNumber).replace(/\D/g, '')`: keep only the decimal digits. -/
def stripNonDigits (s : String) : String :=
  String.mk (s.toList.filter Char.isDigit)

/-- `parseInt` on a single decimal digit character. -/
def charDigit (c : Char) : Nat := c.toNat - 48

/-- The digit transformation of the Luhn loop body: double when the
alternating flag is set, subtracting 9 from doubled digits above 9. -/
def luhnTransform (doubled : Bool) (d : Nat) : Nat :=
  if doubled then (if d * 2 > 9 then d * 2 - 9 else d * 2) else d

/-- The accumulation of `luhnCheck`'s loop, processing the digits
right-to-left; the list argument is already reversed. -/
def luhnSumAux : List Char → Bool → Nat
  | [], _ => 0
  | c :: rest, dbl => luhnTransform dbl (charDigit c) + luhnSumAux rest (!dbl)

/-- `luhnCheck` from `luhn.ts`: loop from the rightmost digit with the
doubling flag initially unset, and require the sum to be divisible by 10. -/
def luhnCheck (number : String) : Bool :=
  luhnSumAux number.toList.reverse false % 10 = 0

/-- `c` lies in the inclusive character range `lo`–`hi` (a regex range). -/
def inRange (lo hi c : Char) : Bool := lo ≤ c && c ≤ hi

/-- The regex `/^3[47]/` (Amex). -/
def amexTest : List Char → Bool
  | '3' :: c :: _ => c = '4' || c = '7'
  | _ => false

/-- The regex `/^4/` (Visa). -/
def visaTest : List Char → Bool
  | '4' :: _ => true
  | _ => false

/-- The suffix alternatives of `/^2(22[1-9]|2[3-9]\d|[3-6]\d{2}|7[01]\d|720)/`
after the leading `2`. -/
def master2Test : List Char → Bool
  | a :: b :: c :: _ =>
    (a = '2' && b = '2' && inRange '1' '9' c) ||
    (a = '2' && inRange '3' '9' b && c.isDigit) ||
    (inRange '3' '6' a && b.isDigit && c.isDigit) ||
    (a = '7' && (b = '0' || b = '1') && c.isDigit) ||
    (a = '7' && b = '2' && c = '0')
  | _ => false

/-- The regex `/^5[1-5]|^2(22[1-9]|2[3-9]\d|[3-6]\d{2}|7[01]\d|720)/`
(Mastercard). -/
def masterTest : List Char → Bool
  | '5' :: c :: _ => inRange '1' '5' c
  | '2' :: rest => master2Test rest
  | _ => false

/-- The suffix alternatives of the Discover 622126–622925 range,
after the leading `622`. -/
def discover622Test : List Char → Bool
  | a :: b :: c :: _ =>
    (a = '1' && b = '2' && inRange '6' '9' c) ||
    (a = '1' && inRange '3' '9' b && c.isDigit) ||
    (inRange '2' '8' a && b.isDigit && c.isDigit) ||
    (a = '9' && (b = '0' || b = '1') && c.isDigit) ||
    (a = '9' && b = '2' && inRange '0' '5' c)
  | _ => false

/-- The regex `/^6(?:011|5|4[4-9]|22(?:12[6-9]|1[3-9]\d|[2-8]\d{2}|9[01]\d|92[0-5]))/`
(Discover). -/
def discoverTest : List Char → Bool
  | '6' :: rest =>
    (match rest with
     | '0' :: '1' :: '1' :: _ => true
     | _ => false) ||
    (match rest with
     | '5' :: _ => true
     | _ => false) ||
    (match rest with
     | '4' :: c :: _ => inRange '4' '9' c
     | _ => false) ||
    (match rest with
     | '2' :: '2' :: tail => discover622Test tail
     | _ => false)
  | _ => false

/-- The regex `/^35(?:2[89]|[3-8]\d)/` (JCB). -/
def jcbTest : List Char → Bool
  | '3' :: '5' :: a :: b :: _ =>
    (a = '2' && (b = '8' || b = '9')) || (inRange '3' '8' a && b.isDigit)
  | _ => false

/-- The regex `/^3(?:0[0-5]|[689])/` (Diners Club): after the leading `3`,
either `0` followed by a digit in `0`–`5`, or a single second character in
`6`/`8`/`9`; a second character `0` commits to the `0[0-5]` alternative. -/
def dinersTest : List Char → Bool
  | '3' :: '0' :: c :: _ => inRange '0' '5' c
  | '3' :: c :: _ => c = '6' || c = '8' || c = '9'
  | _ => false

/-- The regex `/^62/` (UnionPay). -/
def unionpayTest : List Char → Bool
  | '6' :: '2' :: _ => true
  | _ => false

/-- The regex `/^(5018|5020|5038|58|6304|6759|676[1-3])/` (Maestro). -/
def maestroTest : List Char → Bool
  | '5' :: '0' :: a :: b :: _ =>
    (a = '1' && b = '8') || (a = '2' && b = '0') || (a = '3' && b = '8')
  | '5' :: '8' :: _ => true
  | '6' :: '3' :: '0' :: '4' :: _ => true
  | '6' :: '7' :: '5' :: '9' :: _ => true
  | '6' :: '7' :: '6' :: c :: _ => inRange '1' '3' c
  | _ => false

def LENGTHS_AMEX : List Nat := [15]
def LENGTHS_VISA : List Nat := [13, 16, 19]
def LENGTHS_MASTER : List Nat := [16]
def LENGTHS_DISCOVER : List Nat := [16, 19]
def LENGTHS_JCB : List Nat := [16, 19]
def LENGTHS_DINERS : List Nat := [14, 16, 19]
def LENGTHS_UNIONPAY : List Nat := [16, 17, 18, 19]
def LENGTHS_MAESTRO : List Nat := [12, 13, 14, 15, 16, 17, 18, 19]

/-- `validateTypeAndLength` from `luhn.ts`: identify the issuer network by the
leading digits (in the source's test order) and check the length against that
network's allowed set; unknown prefixes fail. -/
def validateTypeAndLength (number : String) : Bool :=
  let l := number.toList
  let n := number.length
  if amexTest l then LENGTHS_AMEX.contains n
  else if visaTest l then LENGTHS_VISA.contains n
  else if masterTest l then LENGTHS_MASTER.contains n
  else if discoverTest l then LENGTHS_DISCOVER.contains n
  else if jcbTest l then LENGTHS_JCB.contains n
  else if dinersTest l then LENGTHS_DINERS.contains n
  else if unionpayTest l then LENGTHS_UNIONPAY.contains n
  else if maestroTest l then LENGTHS_MAESTRO.contains n
  else false

/-- `CreditCardValidator.validate`: strip non-digits; reject the empty string;
require issuer type/length validation and then the Luhn checksum. -/
def CreditCardValidator_validate (rawNumber : String) : Bool :=
  let cleaned := stripNonDigits rawNumber
  if cleaned = "" then false
  else if !validateTypeAndLength cleaned then false
  else luhnCheck cleaned

/-- `luhn_validate` from `luhn.ts` (the exported entry point). -/
def luhn_validate (fullcode : String) : Bool :=
  CreditCardValidator_validate fullcode

/-! ### A spec-side formulation of the Luhn checksum

`luhnSpecSum` states the §4.6 checksum directly: working over the reversed
digit string, the digit at (0-based) position `i` is doubled exactly when `i`
is odd — i.e. starting from the second-from-right digit — with 9 subtracted
from doubled digits above 9. -/

/-- The spec's per-position digit contribution. -/
def luhnDigit (i : Nat) (d : Nat) : Nat :=
  if i % 2 = 1 then (if d * 2 > 9 then d * 2 - 9 else d * 2) else d

/-- The spec's checksum: indexed sum over the reversed digit string. -/
def luhnSpecSum (s : String) : Nat :=
  let ds := s.toList.reverse
  ((List.range ds.length).map (fun i => luhnDigit i (charDigit (ds.getD i '0')))).sum

/-! ## OCR gateway (`src/lib/ocrApi.ts`)

The HTTP transport is an oracle: `none` models a non-OK response or a missing
`Credit_Card_Number` field; `some v` models the raw `value` string the service
returned. `sendToOCR` post-processes the raw value exactly as the source does:
a blank value or a value without digits makes the call throw (`none`),
otherwise the digit-stripped value is returned. -/

def sendToOCR (raw : Option String) : Option String :=
  match raw with
  | none => none
  | some v =>
    if v ≠ "" && jsTrim v ≠ "" then
      let cleaned := stripNonDigits v
      if cleaned.length > 0 then some cleaned else none
    else none

/-! ## Redaction-box splitting (`src/lib/imageUtils.ts`)

Pixel and page coordinates are JavaScript numbers; they are modelled by `Rat`
so the arithmetic (ratios, mean y) is exact. -/

structure PolygonPoint where
  x : Rat
  y : Rat
deriving DecidableEq, Repr

structure RedactionBox where
  page : Nat
  polygon : List PolygonPoint
deriving DecidableEq, Repr

/-- The mean y coordinate of a polygon's vertices
(`box.polygon.reduce((sum, p) => sum + p.y, 0) / box.polygon.length`). -/
def avgY (polygon : List PolygonPoint) : Rat :=
  (polygon.map (fun p => p.y)).sum / (polygon.length : Rat)

/-- Reassign a box to the back image: every vertex's y is reduced by
`apiFrontHeight`, x unchanged (`{ ...box, polygon: adjustedPolygon }`). -/
def shiftBox (apiFrontHeight : Rat) (b : RedactionBox) : RedactionBox :=
  { b with polygon := b.polygon.map (fun p => { x := p.x, y := p.y - apiFrontHeight }) }

/-- The split loop of `applyRedactionToSeparateImages`, run once for
`card_number_boxes` and once for `cvc_boxes`: a box whose mean y is below
`apiFrontHeight` goes to the front list unchanged, otherwise to the back list
with its y coordinates shifted. -/
def splitBoxes (apiFrontHeight : Rat) (boxes : List RedactionBox) :
    List RedactionBox × List RedactionBox :=
  boxes.foldl
    (fun acc b =>
      if avgY b.polygon < apiFrontHeight then (acc.1 ++ [b], acc.2)
      else (acc.1, acc.2 ++ [shiftBox apiFrontHeight b]))
    ([], [])

/-- `apiFrontHeight = apiImageHeight * (frontHeight / (frontHeight + backHeight))`. -/
def apiFrontHeightOf (frontHeight backHeight apiImageHeight : Rat) : Rat :=
  apiImageHeight * (frontHeight / (frontHeight + backHeight))

/-! ## Spreadsheet rows (`src/lib/csvUtils.ts`)

A `CSVRow` is a JavaScript object with string values; it is modelled as an
association list in insertion order. `getCol` is `row[k] || ''` (an absent key
reads as the empty string, matching the code's truthiness tests); `setKey` is
the object-spread update `{ ...row, k: v }`. -/

abbrev Row : Type := List (String × String)

def getColOpt (row : Row) (k : String) : Option String :=
  (List.find? (fun p => p.1 = k) row).map (fun p => p.2)

def getCol (row : Row) (k : String) : String :=
  (getColOpt row k).getD ""

def setKey (row : Row) (k v : String) : Row :=
  if List.any row (fun p => p.1 = k) then
    List.map (fun p => if p.1 = k then (k, v) else p) row
  else row ++ [(k, v)]

/-- The row update used everywhere in `processImages`:
`{ ...row, 'CCN Actual': ccn, 'Luhn Test Actual': luhn }`. -/
def setActual (row : Row) (ccn luhn : String) : Row :=
  setKey (setKey row "CCN Actual" ccn) "Luhn Test Actual" luhn

/-- `updatedRows[idx] = { ...updatedRows[idx], ... }` on the row list. -/
def updAt (rows : List Row) (idx : Nat) (ccn luhn : String) : List Row :=
  rows.set idx (setActual (rows.getD idx default) ccn luhn)

/-! ### CSV parsing and generation -/

/-- `csvText.split('\n')` on a character list. -/
def splitNL : List Char → List (List Char)
  | [] => [[]]
  | '\n' :: r => [] :: splitNL r
  | c :: r =>
    match splitNL r with
    | [] => [[c]]
    | h :: t => (c :: h) :: t

/-- The character loop of `parseCSVLine`: a simple quote-aware field splitter
(doubled quotes inside a quoted field denote a literal quote); each finished
field is trimmed. -/
def parseCSVLineAux : List Char → Bool → List Char → List String → List String
  | [], _, cur, acc => acc ++ [String.mk (trimChars cur)]
  | '"' :: '"' :: rest, true, cur, acc => parseCSVLineAux rest true (cur ++ ['"']) acc
  | '"' :: rest, true, cur, acc => parseCSVLineAux rest false cur acc
  | '"' :: rest, false, cur, acc => parseCSVLineAux rest true cur acc
  | ',' :: rest, true, cur, acc => parseCSVLineAux rest true (cur ++ [',']) acc
  | ',' :: rest, false, cur, acc => parseCSVLineAux rest false [] (acc ++ [String.mk (trimChars cur)])
  | c :: rest, inQ, cur, acc => parseCSVLineAux rest inQ (cur ++ [c]) acc

def parseCSVLine (line : String) : List String :=
  parseCSVLineAux line.toList false [] []

/-- `headers.forEach((header, index) => row[header] = values[index] || '')`. -/
def buildRow (headers values : List String) : Row :=
  (List.range headers.length).foldl
    (fun r i => setKey r (headers.getD i "") (values.getD i "")) []

/-- `parseCSV` from `csvUtils.ts`. -/
def parseCSV (csvText : String) : List Row :=
  let lines := (splitNL (jsTrim csvText).toList).map String.mk
  if lines.length < 2 then []
  else
    match lines with
    | [] => []
    | headerLine :: rest =>
      let headers := parseCSVLine headerLine
      rest.map (fun line => buildRow headers (parseCSVLine line))

/-- `.replace(/"/g, '""')`. -/
def escQuotes : List Char → List Char
  | [] => []
  | '"' :: r => '"' :: '"' :: escQuotes r
  | c :: r => c :: escQuotes r

/-- `escapeValue` from `generateCSV`. -/
def escapeValue (v : String) : String :=
  if v.toList.contains ',' || v.toList.contains '"' || v.toList.contains '\n' then
    String.mk ('"' :: escQuotes v.toList ++ ['"'])
  else v

def legacyHeaders : List String :=
  ["Customer name", "filename", "CCN Expected", "CCN Actual",
   "Luhn test Expected", "Luhn Test Actual"]

def newHeaders : List String :=
  ["Customer name", "filename", "CCN Expected", "CCN Actual",
   "Luhn/BIN Expected", "Luhn/BIN Actual"]

/-- `generateCSV` from `csvUtils.ts`: pick the header set by probing the first
row for the renamed columns, then serialize exactly those six columns. -/
def generateCSV (rows : List Row) : String :=
  match rows with
  | [] => ""
  | r0 :: _ =>
    let hasNewFormat :=
      (getColOpt r0 "Luhn/BIN Expected").isSome || (getColOpt r0 "Luhn/BIN Actual").isSome
    let headers := if hasNewFormat then newHeaders else legacyHeaders
    let headerLine := String.intercalate "," (headers.map escapeValue)
    let dataLines := rows.map
      (fun row => String.intercalate "," (headers.map (fun h => escapeValue (getCol row h))))
    String.intercalate "\n" (headerLine :: dataLines)

/-! ## Folder matching and the processing orchestrator (`src/pages/Index.tsx`)

Image files are identified by filename; the byte contents only matter to the
remote services, which are oracles. -/

structure FolderStructure where
  folderName : String
  customerName : String
  files : List String
deriving DecidableEq, Repr

structure CreditCardPair where
  front : String
  back : String
deriving DecidableEq, Repr

/-- The loop body of `findMatchingFolder`: per folder, first the exact test on
the normalized names, then the substring-containment test; the first folder
passing either test is returned. -/
def findMatchingFolderAux (normalizedCustomer : String) : List FolderStructure → Option FolderStructure
  | [] => none
  | folder :: rest =>
    let normalizedFolder := normalizeCustomerName folder.customerName
    if normalizedFolder = normalizedCustomer then some folder
    else if containsSub normalizedFolder.toList normalizedCustomer.toList ||
            containsSub normalizedCustomer.toList normalizedFolder.toList then some folder
    else findMatchingFolderAux normalizedCustomer rest

/-- `findMatchingFolder` from `Index.tsx`. -/
def findMatchingFolder (folderStructure : List FolderStructure) (customerName : String) :
    Option FolderStructure :=
  findMatchingFolderAux (normalizeCustomerName customerName) folderStructure

/-- The remote services, as oracles. `rawSingle f` is the raw OCR value for
submitting the file named `f` alone; `rawMerged f b` is the raw value for the
vertical composite of `f` on top of `b`; `grouping files` is the flattened
pair list of `categorizeImages` + `groupCreditCards`, with `none` modelling a
failure of either call. -/
structure Oracles where
  rawSingle : String → Option String
  rawMerged : String → String → Option String
  grouping : List String → Option (List CreditCardPair)

/-- Group CSV rows by the raw `Customer name` value, in first-occurrence order
(the JavaScript `Map` insertion order). -/
def addToGroups (gs : List (String × List Nat)) (name : String) (i : Nat) :
    List (String × List Nat) :=
  if gs.any (fun g => g.1 = name) then
    gs.map (fun g => if g.1 = name then (g.1, g.2 ++ [i]) else g)
  else gs ++ [(name, [i])]

def groupByCustomer (rows : List Row) : List (String × List Nat) :=
  (List.range rows.length).foldl
    (fun gs i => addToGroups gs (getCol (rows.getD i default) "Customer name") i) []

/-- The no-folder branch: every row of the customer still lacking a
`CCN Actual` value gets the `FOLDER_NOT_FOUND` sentinel and `Fail`. -/
def markNoFolder (rowIndices : List Nat) (rows : List Row) : List Row :=
  rowIndices.foldl
    (fun rs idx =>
      if getCol (rs.getD idx default) "CCN Actual" = "" then
        updAt rs idx "FOLDER_NOT_FOUND" "Fail"
      else rs)
    rows

/-- `luhnResult = ccn ? (luhn_validate(ccn) ? 'Pass' : 'Fail') : 'Fail'`. -/
def luhnResultOf (ccn : String) : String :=
  if ccn ≠ "" then (if luhn_validate ccn then "Pass" else "Fail") else "Fail"

/-- OCR of a single image with the catch-branch of the non-paired paths:
a thrown call records the `NOT_FOUND` sentinel with `Fail`. -/
def ocrSingleFile (o : Oracles) (file : String) : String × String :=
  match sendToOCR (o.rawSingle file) with
  | some ccn => (ccn, luhnResultOf ccn)
  | none => ("NOT_FOUND", "Fail")

/-- OCR of a composited front/back pair, including the fallback chain of
`processImages`: if the merged call throws, retry the front image alone, then
the back image alone, keeping the first result that is non-blank; if no
attempt yields a non-blank value, record `NOT_FOUND` / `Fail`. -/
def ocrMergedWithRetry (o : Oracles) (frontFile backFile : String) : String × String :=
  match sendToOCR (o.rawMerged frontFile backFile) with
  | some ccn => (ccn, luhnResultOf ccn)
  | none =>
    let afterFront : String × String :=
      match sendToOCR (o.rawSingle frontFile) with
      | some f =>
        if f ≠ "" && jsTrim f ≠ "" then (f, if luhn_validate f then "Pass" else "Fail")
        else ("", "Fail")
      | none => ("", "Fail")
    let afterBack : String × String :=
      if afterFront.1 = "" || jsTrim afterFront.1 = "" then
        match sendToOCR (o.rawSingle backFile) with
        | some b =>
          if b ≠ "" && jsTrim b ≠ "" then (b, if luhn_validate b then "Pass" else "Fail")
          else afterFront
        | none => afterFront
      else afterFront
    if afterBack.1 = "" || jsTrim afterBack.1 = "" then ("NOT_FOUND", "Fail") else afterBack

/-- `folder.files.find(f => normalizeForComparison(f.name) === normalizeForComparison(name) || f.name === name)`. -/
def findFile (files : List String) (name : String) : Option String :=
  files.find? (fun f => normalizeForComparison f = normalizeForComparison name || f = name)

/-- Synthesized degenerate pairs: every file on its own
(`folder.files.map(file => ({ front: file.name, back: '' }))`). -/
def degradedPairs (files : List String) : List CreditCardPair :=
  files.map (fun f => { front := f, back := "" })

/-- The pair list actually processed: the grouping result, degraded to
per-file singles when grouping/categorization threw or returned zero pairs. -/
def computeCardPairs (groupResult : Option (List CreditCardPair)) (files : List String) :
    List CreditCardPair :=
  match groupResult with
  | none => degradedPairs files
  | some ps => if ps.length = 0 then degradedPairs files else ps

/-! ### Row reconciliation (write-back) -/

/-- The exact-filename write-back pass: every row of the customer whose
normalized filename equals the normalized form of one of `matchFilenames` is
overwritten with the outcome; returns the updated rows and the list of updated
indices (`updatedIndices`/`updatedCount`). -/
def reconcileExact (rows : List Row) (rowIndices : List Nat) (matchFilenames : List String)
    (ccn luhn : String) : List Row × List Nat :=
  rowIndices.foldl
    (fun acc idx =>
      let rowFilename := getCol (acc.1.getD idx default) "filename"
      if matchFilenames.any
          (fun m => normalizeForComparison m = normalizeForComparison rowFilename) then
        (updAt acc.1 idx ccn luhn, acc.2 ++ [idx])
      else acc)
    (rows, [])

/-- The fallback pass when no filename matched: fill the first still-empty
row(s), capped at one row for single images and two rows for pairs. -/
def reconcileFallback (ccn luhn : String) (matchLen : Nat) (updatedIdx : List Nat)
    (count : Nat) (rows : List Row) : List Nat → List Row
  | [] => rows
  | idx :: rest =>
    if getCol (rows.getD idx default) "CCN Actual" = "" && !updatedIdx.contains idx then
      let rows' := updAt rows idx ccn luhn
      if matchLen = 1 || count + 1 ≥ 2 then rows'
      else reconcileFallback ccn luhn matchLen (updatedIdx ++ [idx]) (count + 1) rows' rest
    else reconcileFallback ccn luhn matchLen updatedIdx count rows rest

/-- One outcome's write-back (`processImages`, lines 431–478): exact filename
reconciliation first; if it updated nothing, the fallback pass. -/
def reconcileOutcome (rows : List Row) (rowIndices : List Nat) (matchFilenames : List String)
    (ccn luhn : String) : List Row :=
  let r := reconcileExact rows rowIndices matchFilenames ccn luhn
  if r.2.length = 0 then
    reconcileFallback ccn luhn matchFilenames.length [] 0 r.1 rowIndices
  else r.1

/-! ### Per-pair and per-customer processing -/

/-- The outcome of one card pair, when its files can be located: the OCR'd
card number, the validation result, and the actual filenames to reconcile by.
`none` means a referenced file was missing from the folder. -/
def pairOutcome (o : Oracles) (files : List String) (pair : CreditCardPair) :
    Option (String × String × List String) :=
  if pair.front ≠ "" && pair.back ≠ "" then
    match findFile files pair.front, findFile files pair.back with
    | some frontFile, some backFile =>
      let r := ocrMergedWithRetry o frontFile backFile
      some (r.1, r.2, [frontFile, backFile])
    | _, _ => none
  else
    let singleFileName := if pair.front ≠ "" then pair.front else pair.back
    match findFile files singleFileName with
    | some singleFile =>
      let r := ocrSingleFile o singleFile
      some (r.1, r.2, [singleFile])
    | none => none

/-- The missing-file branches: rows whose filename matches a dangling pair
reference are marked `NOT_FOUND` (unconditionally), and the pair is skipped. -/
def processPairMissing (rowIndices : List Nat) (rows : List Row) (pair : CreditCardPair) :
    List Row :=
  if pair.front ≠ "" && pair.back ≠ "" then
    let missingFiles := [pair.front, pair.back].filter (fun f => f ≠ "")
    rowIndices.foldl
      (fun rs idx =>
        if missingFiles.any
            (fun f => normalizeForComparison f =
              normalizeForComparison (getCol (rs.getD idx default) "filename")) then
          updAt rs idx "NOT_FOUND" "Fail"
        else rs)
      rows
  else
    let singleFileName := if pair.front ≠ "" then pair.front else pair.back
    rowIndices.foldl
      (fun rs idx =>
        if normalizeForComparison singleFileName =
            normalizeForComparison (getCol (rs.getD idx default) "filename") then
          updAt rs idx "NOT_FOUND" "Fail"
        else rs)
      rows

/-- Processing of one card pair inside the multi-image scenario. -/
def processPair (o : Oracles) (files : List String) (rowIndices : List Nat)
    (rows : List Row) (pair : CreditCardPair) : List Row :=
  match pairOutcome o files pair with
  | some (ccn, luhn, matchFilenames) => reconcileOutcome rows rowIndices matchFilenames ccn luhn
  | none => processPairMissing rowIndices rows pair

/-- The trailing sweep of the multi-image scenario: every folder file not
referenced by any pair is OCR'd individually and written to matching rows
that are still empty. -/
def processUngrouped (o : Oracles) (files : List String) (cardPairs : List CreditCardPair)
    (rowIndices : List Nat) (rows : List Row) : List Row :=
  let processedFiles := cardPairs.foldl
    (fun s p =>
      (s ++ (if p.front ≠ "" then [p.front] else [])) ++
        (if p.back ≠ "" then [p.back] else []))
    []
  let unprocessedFiles := files.filter (fun f => !processedFiles.contains f)
  unprocessedFiles.foldl
    (fun rs file =>
      let r := ocrSingleFile o file
      rowIndices.foldl
        (fun rs2 idx =>
          if normalizeForComparison (getCol (rs2.getD idx default) "filename") =
              normalizeForComparison file then
            (if getCol (rs2.getD idx default) "CCN Actual" = "" then updAt rs2 idx r.1 r.2
             else rs2)
          else rs2)
        rs)
    rows

/-- The single-image scenario: OCR the lone file, write every row whose
normalized filename matches; if none matched, write the customer's first row. -/
def processSingle (o : Oracles) (file : String) (rowIndices : List Nat) (rows : List Row) :
    List Row :=
  let r := ocrSingleFile o file
  let afterMatch := rowIndices.foldl
    (fun (acc : List Row × Bool) idx =>
      if normalizeForComparison (getCol (acc.1.getD idx default) "filename") =
          normalizeForComparison file then
        (updAt acc.1 idx r.1 r.2, true)
      else acc)
    (rows, false)
  if afterMatch.2 then afterMatch.1
  else
    match rowIndices with
    | [] => afterMatch.1
    | idx :: _ => updAt afterMatch.1 idx r.1 r.2

/-- Processing of a matched, non-empty folder for one customer. -/
def processFolderCustomer (o : Oracles) (folder : FolderStructure) (rowIndices : List Nat)
    (rows : List Row) : List Row :=
  if folder.files.length = 1 then
    processSingle o (folder.files.getD 0 "") rowIndices rows
  else
    let cardPairs := computeCardPairs (o.grouping folder.files) folder.files
    let rows1 := cardPairs.foldl (fun rs p => processPair o folder.files rowIndices rs p) rows
    processUngrouped o folder.files cardPairs rowIndices rows1

/-- One iteration of the customer loop of `processImages`. -/
def customerStep (o : Oracles) (folderStructure : List FolderStructure) (rows : List Row)
    (cg : String × List Nat) : List Row :=
  match findMatchingFolder folderStructure cg.1 with
  | none => markNoFolder cg.2 rows
  | some folder =>
    if folder.files.length = 0 then markNoFolder cg.2 rows
    else processFolderCustomer o folder cg.2 rows

/-- The customer loop of `processImages`: group the rows by raw customer name
and process the customers sequentially, threading the row list through. -/
def processImages (o : Oracles) (folderStructure : List FolderStructure) (rows : List Row) :
    List Row :=
  (groupByCustomer rows).foldl (customerStep o folderStructure) rows

/-- The per-folder acceptance test of the matcher's loop body, as a single
predicate: exact normalized equality or substring containment either way. -/
def folderMatchTest (normalizedCustomer : String) (folder : FolderStructure) : Bool :=
  let nf := normalizeCustomerName folder.customerName
  nf = normalizedCustomer ||
    (containsSub nf.toList normalizedCustomer.toList ||
      containsSub normalizedCustomer.toList nf.toList)

/-- The row groups after scanning only the first `n` rows (used to reason
about `groupByCustomer` by induction on the scan). -/
def groupsUpTo (rows : List Row) (n : Nat) : List (String × List Nat) :=
  (List.range n).foldl
    (fun gs i => addToGroups gs (getCol (rows.getD i default) "Customer name") i) []

/-! ## Concrete inputs used by the witnesses and counterexamples -/

/-- An oracle environment in which every remote call fails. -/
def oTriv : Oracles := ⟨fun _ => none, fun _ _ => none, fun _ => none⟩

/-- A CSV input with an extra `Notes` column the pipeline does not understand. -/
def csvInputC1 : String :=
  "Customer name,filename,CCN Expected,CCN Actual,Luhn test Expected,Luhn Test Actual,Notes\nA,f.jpg,1,2,3,4,ZZZ"

/-- A single-row sheet whose customer has no matching folder. -/
def rowsNoFolder : List Row :=
  [[("Customer name", "A"), ("filename", "f.jpg"), ("CCN Actual", ""), ("Luhn Test Actual", "")]]

/-- Candidate folders where an earlier folder matches by containment and a
later one matches exactly. -/
def foldersC3 : List FolderStructure :=
  [{ folderName := "JOHN DOE_1a2b3c4d", customerName := "JOHN DOE", files := ["a.jpg"] },
   { folderName := "JOHN_5e6f7a8b", customerName := "JOHN", files := ["b.jpg"] }]

/-- An oracle whose grouping reports the file `a.jpg` twice across two pairs,
with different OCR results for the single and the merged submission. -/
def oC9 : Oracles :=
  ⟨fun f => if f = "a.jpg" then some "4111111111111111" else none,
   fun f b => if f = "a.jpg" && b = "b.jpg" then some "5105105105105100" else none,
   fun _ => some [{ front := "a.jpg", back := "" }, { front := "a.jpg", back := "b.jpg" }]⟩

/-- One CSV row for the customer of `oC9`, reconciled by filename `a.jpg`. -/
def rowsC9 : List Row :=
  [[("Customer name", "A"), ("filename", "a.jpg"), ("CCN Actual", ""), ("Luhn Test Actual", "")]]

/-- A populated row whose filename matches no outcome filename. -/
def rowsC9W : List Row :=
  [[("Customer name", "A"), ("filename", "x.jpg"), ("CCN Actual", "1111"), ("Luhn Test Actual", "Fail")]]

/-- An oracle for the retry-chain witness: the merged call fails, the front
image alone succeeds. -/
def oC5 : Oracles :=
  ⟨fun f => if f = "front.jpg" then some "4111111111111111" else none,
   fun _ _ => none,
   fun _ => none⟩

/-- An oracle whose grouping always fails. -/
def oC4 : Oracles := ⟨fun _ => none, fun _ _ => none, fun _ => none⟩

/-- Two rows whose raw customer names differ only in case. -/
def rowsC10 : List Row :=
  [[("Customer name", "john doe"), ("filename", "a.jpg")],
   [("Customer name", "JOHN DOE"), ("filename", "b.jpg")]]

/-! # Theorems -/

/-! ## Generic list and row lemmas -/

theorem mk_toList (s : String) : String.mk s.toList = s := rfl

theorem getD_set_self {α : Type} (l : List α) (idx : Nat) (a d : α) (h : idx < l.length) :
    (l.set idx a).getD idx d = a := by
  induction l generalizing idx with
  | nil => simp at h
  | cons x xs ih =>
    cases idx with
    | zero => simp [List.set]
    | succ n =>
      simp only [List.set, List.getD_cons_succ]
      exact ih n (by simpa using h)

theorem getD_set_ne {α : Type} (l : List α) (idx : Nat) (a d : α) (i : Nat) (h : i ≠ idx) :
    (l.set idx a).getD i d = l.getD i d := by
  induction l generalizing idx i with
  | nil => simp [List.set]
  | cons x xs ih =>
    cases idx with
    | zero =>
      cases i with
      | zero => exact absurd rfl h
      | succ m => simp [List.set]
    | succ n =>
      cases i with
      | zero => simp [List.set]
      | succ m =>
        simp only [List.set, List.getD_cons_succ]
        exact ih n m (fun hc => h (by omega))

theorem find?_map_replace_self (row : Row) (k v : String)
    (hany : List.any row (fun p => p.1 = k) = true) :
    List.find? (fun p => p.1 = k) (List.map (fun p => if p.1 = k then (k, v) else p) row) =
      some (k, v) := by
  induction row with
  | nil => simp at hany
  | cons p rest ih =>
    rw [List.map_cons]
    by_cases hp : p.1 = k
    · rw [if_pos hp, List.find?_cons_of_pos _ (by simp)]
    · rw [if_neg hp, List.find?_cons_of_neg _ (by simp [hp])]
      simp only [List.any_cons, Bool.or_eq_true, decide_eq_true_eq, hp, false_or] at hany
      exact ih hany

theorem find?_map_replace_ne (row : Row) (k v k' : String) (h : k' ≠ k) :
    List.find? (fun p => p.1 = k') (List.map (fun p => if p.1 = k then (k, v) else p) row) =
      List.find? (fun p => p.1 = k') row := by
  induction row with
  | nil => rfl
  | cons p rest ih =>
    rw [List.map_cons]
    by_cases hp : p.1 = k
    · rw [if_pos hp, List.find?_cons_of_neg _ (by simp [Ne.symm h]),
        List.find?_cons_of_neg _ (by simp [hp, Ne.symm h]), ih]
    · rw [if_neg hp]
      by_cases hq : p.1 = k'
      · rw [List.find?_cons_of_pos _ (by simp [hq]), List.find?_cons_of_pos _ (by simp [hq])]
      · rw [List.find?_cons_of_neg _ (by simp [hq]), List.find?_cons_of_neg _ (by simp [hq]), ih]

theorem find?_key_eq_none (row : Row) (k : String)
    (hany : List.any row (fun p => p.1 = k) = false) :
    List.find? (fun p => p.1 = k) row = none := by
  rw [List.find?_eq_none]
  intro p hp hc
  have : List.any row (fun q => q.1 = k) = true := by
    simp only [List.any_eq_true, decide_eq_true_eq]
    exact ⟨p, hp, by simpa using hc⟩
  rw [this] at hany
  exact absurd hany (by simp)

theorem getCol_setKey_self (row : Row) (k v : String) :
    getCol (setKey row k v) k = v := by
  unfold setKey getCol getColOpt
  cases hany : List.any row (fun p => p.1 = k) with
  | true =>
    rw [if_pos rfl, find?_map_replace_self row k v hany]
    rfl
  | false =>
    rw [if_neg (by simp), List.find?_append, find?_key_eq_none row k hany]
    rw [Option.none_or, List.find?_cons_of_pos _ (by simp)]
    rfl

theorem getCol_setKey_ne (row : Row) (k v k' : String) (h : k' ≠ k) :
    getCol (setKey row k v) k' = getCol row k' := by
  unfold setKey getCol getColOpt
  cases hany : List.any row (fun p => p.1 = k) with
  | true =>
    rw [if_pos rfl, find?_map_replace_ne row k v k' h]
  | false =>
    rw [if_neg (by simp), List.find?_append]
    cases hf : List.find? (fun p => p.1 = k') row with
    | some p => simp
    | none =>
      rw [Option.none_or, List.find?_cons_of_neg _ (by simp [Ne.symm h])]
      simp

theorem getCol_setActual_ccn (row : Row) (c l : String) :
    getCol (setActual row c l) "CCN Actual" = c := by
  unfold setActual
  rw [getCol_setKey_ne _ _ _ _ (by decide), getCol_setKey_self]

theorem getCol_setActual_luhn (row : Row) (c l : String) :
    getCol (setActual row c l) "Luhn Test Actual" = l := by
  unfold setActual
  rw [getCol_setKey_self]

theorem getCol_setActual_other (row : Row) (c l k : String)
    (h1 : k ≠ "CCN Actual") (h2 : k ≠ "Luhn Test Actual") :
    getCol (setActual row c l) k = getCol row k := by
  unfold setActual
  rw [getCol_setKey_ne _ _ _ _ h2, getCol_setKey_ne _ _ _ _ h1]

theorem length_updAt (rows : List Row) (idx : Nat) (c l : String) :
    (updAt rows idx c l).length = rows.length := by
  unfold updAt
  exact List.length_set ..

theorem getD_updAt_self (rows : List Row) (idx : Nat) (c l : String) (h : idx < rows.length) :
    (updAt rows idx c l).getD idx default = setActual (rows.getD idx default) c l := by
  unfold updAt
  exact getD_set_self _ _ _ _ h

theorem getD_updAt_ne (rows : List Row) (idx : Nat) (c l : String) (i : Nat) (h : i ≠ idx) :
    (updAt rows idx c l).getD i default = rows.getD i default := by
  unfold updAt
  exact getD_set_ne _ _ _ _ _ h

theorem getD_updAt_oob (rows : List Row) (idx : Nat) (c l : String)
    (h : ¬ idx < rows.length) :
    updAt rows idx c l = rows := by
  unfold updAt
  exact List.set_eq_of_length_le (by omega)

/-! ## The frame relation: only the two actual-result columns may change -/

/-- `rows'` agrees with `rows` on every column other than `CCN Actual` and
`Luhn Test Actual`, row by row. -/
def framePres (rows rows' : List Row) : Prop :=
  ∀ i k, k ≠ "CCN Actual" → k ≠ "Luhn Test Actual" →
    getCol (rows'.getD i default) k = getCol (rows.getD i default) k

theorem framePres_refl (rows : List Row) : framePres rows rows :=
  fun _ _ _ _ => rfl

theorem framePres_trans {a b c : List Row} (h1 : framePres a b) (h2 : framePres b c) :
    framePres a c :=
  fun i k hk1 hk2 => (h2 i k hk1 hk2).trans (h1 i k hk1 hk2)

theorem framePres_updAt (rows : List Row) (idx : Nat) (c l : String) :
    framePres rows (updAt rows idx c l) := by
  intro i k hk1 hk2
  by_cases hi : i = idx
  · subst hi
    by_cases hlt : i < rows.length
    · rw [getD_updAt_self _ _ _ _ hlt, getCol_setActual_other _ _ _ _ hk1 hk2]
    · rw [getD_updAt_oob _ _ _ _ hlt]
  · rw [getD_updAt_ne _ _ _ _ _ hi]

theorem framePres_ite (rows : List Row) (cond : Prop) [Decidable cond]
    (rows' : List Row) (h : framePres rows rows') :
    framePres rows (if cond then rows' else rows) := by
  by_cases hc : cond
  · simpa [hc] using h
  · simpa [hc] using framePres_refl rows

theorem framePres_foldl {α β : Type} (π : α → List Row) (step : α → β → α)
    (h : ∀ a b, framePres (π a) (π (step a b))) :
    ∀ (l : List β) (a : α), framePres (π a) (π (l.foldl step a))
  | [], _ => framePres_refl _
  | b :: rest, a =>
    framePres_trans (h a b) (framePres_foldl π step h rest (step a b))

/-! ## Character and trimming lemmas for the OCR result shape -/

theorem isDigit_not_isWS (c : Char) (h : c.isDigit = true) : isWS c = false := by
  cases hw : isWS c with
  | false => rfl
  | true =>
    exfalso
    simp only [isWS, Bool.or_eq_true, decide_eq_true_eq] at hw
    rcases hw with ((((rfl | rfl) | rfl) | rfl) | rfl) | rfl <;> simp [Char.isDigit] at h

theorem dropWhile_eq_self_of_not (l : List Char) (h : ∀ x ∈ l, isWS x = false) :
    l.dropWhile isWS = l := by
  cases l with
  | nil => rfl
  | cons c r =>
    rw [List.dropWhile_cons, h c (by simp)]
    simp

theorem trimChars_eq_self (l : List Char) (h : ∀ x ∈ l, isWS x = false) :
    trimChars l = l := by
  unfold trimChars
  rw [dropWhile_eq_self_of_not l h,
    dropWhile_eq_self_of_not l.reverse (fun x hx => h x (List.mem_reverse.mp hx)),
    List.reverse_reverse]

/-- A successful `sendToOCR` result is a non-empty all-digit string, hence in
particular non-blank: its `trim` is itself and differs from `""`. -/
theorem sendToOCR_some (raw : Option String) (c : String)
    (h : sendToOCR raw = some c) :
    c ≠ "" ∧ jsTrim c = c := by
  cases raw with
  | none => exact absurd h (by simp [sendToOCR])
  | some v =>
    simp only [sendToOCR] at h
    by_cases h1 : v ≠ "" && jsTrim v ≠ ""
    · rw [if_pos h1] at h
      by_cases h2 : (stripNonDigits v).length > 0
      · rw [if_pos h2] at h
        have hc : c = stripNonDigits v := by
          cases h
          rfl
        subst hc
        constructor
        · intro hempty
          rw [hempty] at h2
          simp [String.length] at h2
        · unfold jsTrim stripNonDigits
          rw [trimChars_eq_self]
          · rfl
          · intro x hx
            simp only [String.toList, String.mk] at hx
            exact isDigit_not_isWS x (List.of_mem_filter hx)
      · rw [if_neg h2] at h
        exact absurd h (by simp)
    · rw [if_neg h1] at h
      exact absurd h (by simp)

/-! ## Luhn checksum: loop versus indexed spec -/

theorem luhnDigit_mod_two (i j d : Nat) (h : i % 2 = j % 2) :
    luhnDigit i d = luhnDigit j d := by
  simp only [luhnDigit, h]

theorem luhnSumAux_eq_range (l : List Char) (b : Bool) :
    luhnSumAux l b =
      ((List.range l.length).map
        (fun i => luhnDigit (i + (if b then 1 else 0)) (charDigit (l.getD i '0')))).sum := by
  induction l generalizing b with
  | nil => simp [luhnSumAux]
  | cons c rest ih =>
    rw [luhnSumAux, ih (!b)]
    simp only [List.length_cons, List.range_succ_eq_map, List.map_cons, List.map_map,
      List.sum_cons, List.getD_cons_zero]
    congr 1
    · cases b <;> simp [luhnTransform, luhnDigit]
    · apply congrArg
      apply List.map_congr_left
      intro i _
      simp only [Function.comp_apply, List.getD_cons_succ]
      apply luhnDigit_mod_two
      cases b with
      | false => simp
      | true =>
        simp only [Bool.not_true, Bool.false_eq_true, if_false, if_true, Nat.add_zero]
        omega

/-- The loop in `luhnCheck` computes exactly the spec checksum. -/
theorem luhnCheck_eq_spec (s : String) :
    luhnCheck s = (luhnSpecSum s % 10 = 0 : Bool) := by
  unfold luhnCheck luhnSpecSum
  rw [luhnSumAux_eq_range]
  simp

/-- Stripping non-digits is idempotent, so the validator only ever sees the
stripped digit string. -/
theorem stripNonDigits_idem (s : String) :
    stripNonDigits (stripNonDigits s) = stripNonDigits s := by
  unfold stripNonDigits
  simp [List.filter_filter]

theorem luhn_validate_strip (s : String) :
    luhn_validate s = luhn_validate (stripNonDigits s) := by
  unfold luhn_validate CreditCardValidator_validate
  rw [stripNonDigits_idem]

/-! ## Claim C6 -/

/-- Claim C6 counterexample: on the input `"0"` the stripped digit string is
non-empty and its Luhn checksum is 0 (divisible by 10), so the claim's
checksum-only reading predicts `true`; the code's `luhn_validate` returns
`false`, because the default build also enforces issuer type/length
classification (`validateTypeAndLength`), which rejects the prefix `0`. -/
theorem claim_C6_counterexample :
    luhn_validate "0" = false ∧ stripNonDigits "0" ≠ "" ∧
      luhnSpecSum (stripNonDigits "0") % 10 = 0 ∧
      validateTypeAndLength (stripNonDigits "0") = false := by
  refine ⟨by decide, by decide, by decide, by decide⟩

/-- Claim C6 (amended): `luhn_validate` returns `true` exactly when the input
with non-digit characters stripped is non-empty, passes the issuer
type/length validation (`validateTypeAndLength`), and has Luhn checksum
(doubling every second digit from the second-from-right leftward, subtracting
9 from doubled digits above 9) divisible by 10. The issuer classification is
part of the default build, not an optional stricter mode. -/
theorem claim_C6_validator_characterization (s : String) :
    luhn_validate s = true ↔
      (stripNonDigits s ≠ "" ∧ validateTypeAndLength (stripNonDigits s) = true ∧
        luhnSpecSum (stripNonDigits s) % 10 = 0) := by
  unfold luhn_validate CreditCardValidator_validate
  by_cases h1 : stripNonDigits s = ""
  · simp [h1]
  · by_cases h2 : validateTypeAndLength (stripNonDigits s) = true
    · simp [h1, h2, luhnCheck_eq_spec]
    · simp [h1, h2]

/-- Claim C6 witness: the validator characterization instantiated at the
spec's own known-valid test vector. -/
theorem claim_C6_witness : luhn_validate "4532015112830366" = true :=
  (claim_C6_validator_characterization "4532015112830366").mpr
    ⟨by decide, by decide, by decide⟩

/-! ## Claim C8 -/

/-- Claim C8: for every digit string `d` and every string `s` obtained by
interleaving non-digit characters into `d` (that is, the digit subsequence of
`s` is exactly `d`), the validator gives the same verdict on `s` as on `d`,
because non-digit characters are stripped before any computation. -/
theorem claim_C8_nondigit_invariance (d s : String)
    (hd : ∀ c ∈ d.toList, c.isDigit = true)
    (hs : s.toList.filter Char.isDigit = d.toList) :
    luhn_validate s = luhn_validate d := by
  have hstrip_s : stripNonDigits s = d := by
    unfold stripNonDigits
    rw [hs]
    rfl
  have hstrip_d : stripNonDigits d = d := by
    unfold stripNonDigits
    rw [List.filter_eq_self.mpr (by simpa using hd)]
    rfl
  rw [luhn_validate_strip s, hstrip_s, luhn_validate_strip d, hstrip_d]

/-- Claim C8 witness: a hyphen-decorated card number validates exactly like
its bare digit string. -/
theorem claim_C8_witness :
    (∀ c ∈ "4532015112830366".toList, c.isDigit = true) ∧
    "4532-0151-1283-0366".toList.filter Char.isDigit = "4532015112830366".toList ∧
    luhn_validate "4532-0151-1283-0366" = luhn_validate "4532015112830366" := by
  refine ⟨by decide, by decide,
    claim_C8_nondigit_invariance "4532015112830366" "4532-0151-1283-0366" (by decide) (by decide)⟩

/-! ## Claim C7 -/

theorem splitBoxes_foldl (h : Rat) (boxes : List RedactionBox) (accF accB : List RedactionBox) :
    boxes.foldl
      (fun acc b =>
        if avgY b.polygon < h then (acc.1 ++ [b], acc.2)
        else (acc.1, acc.2 ++ [shiftBox h b]))
      (accF, accB) =
      (accF ++ boxes.filter (fun b => decide (avgY b.polygon < h)),
       accB ++ (boxes.filter (fun b => !decide (avgY b.polygon < h))).map (shiftBox h)) := by
  induction boxes generalizing accF accB with
  | nil => simp
  | cons b rest ih =>
    by_cases hb : avgY b.polygon < h
    · simp [hb, ih, List.filter_cons]
    · simp [hb, ih, List.filter_cons]

/-- Claim C7: the redaction split assigns each detected region by the mean y
of its polygon vertices, with the boundary `apiFrontHeight` computed as the
API page height scaled by `frontHeight / (frontHeight + backHeight)`: regions
with mean y below the boundary go to the front image with coordinates
unchanged, all others go to the back image with every vertex's y reduced by
the boundary; the two output lists partition the input, so no region is ever
rendered on both images. -/
theorem claim_C7_split (frontHeight backHeight apiImageHeight : Rat)
    (boxes : List RedactionBox) :
    splitBoxes (apiFrontHeightOf frontHeight backHeight apiImageHeight) boxes =
      (boxes.filter
        (fun b => decide (avgY b.polygon < apiFrontHeightOf frontHeight backHeight apiImageHeight)),
       (boxes.filter
        (fun b => !decide (avgY b.polygon <
          apiFrontHeightOf frontHeight backHeight apiImageHeight))).map
        (shiftBox (apiFrontHeightOf frontHeight backHeight apiImageHeight))) ∧
    (splitBoxes (apiFrontHeightOf frontHeight backHeight apiImageHeight) boxes).1.length +
      (splitBoxes (apiFrontHeightOf frontHeight backHeight apiImageHeight) boxes).2.length =
        boxes.length := by
  have heq := splitBoxes_foldl (apiFrontHeightOf frontHeight backHeight apiImageHeight) boxes [] []
  constructor
  · unfold splitBoxes
    simpa using heq
  · unfold splitBoxes
    rw [heq]
    simp only [List.nil_append, List.length_map]
    have hlen : ∀ (l : List RedactionBox) (p : RedactionBox → Bool),
        (l.filter p).length + (l.filter (fun b => !p b)).length = l.length := by
      intro l p
      induction l with
      | nil => rfl
      | cons x xs ih =>
        cases hx : p x with
        | true =>
          simp [List.filter_cons, hx]
          omega
        | false =>
          simp [List.filter_cons, hx]
          omega
    exact hlen boxes (fun b => decide (avgY b.polygon <
      apiFrontHeightOf frontHeight backHeight apiImageHeight))

/-! ## Claim C3 -/

/-- Claim C3 counterexample: with the candidate set `foldersC3`, an exact
normalized match for the customer `"JOHN"` exists (the second folder), yet the
matcher returns the first folder, which matches only by substring containment.
Exact equality therefore does not take precedence across the candidate set. -/
theorem claim_C3_counterexample :
    (∃ f ∈ foldersC3, normalizeCustomerName f.customerName = normalizeCustomerName "JOHN") ∧
    findMatchingFolder foldersC3 "JOHN" =
      some { folderName := "JOHN DOE_1a2b3c4d", customerName := "JOHN DOE", files := ["a.jpg"] } ∧
    normalizeCustomerName "JOHN DOE" ≠ normalizeCustomerName "JOHN" := by
  refine ⟨⟨{ folderName := "JOHN_5e6f7a8b", customerName := "JOHN", files := ["b.jpg"] },
    by decide, by decide⟩, ?_, by decide⟩
  decide

/-- Claim C3 (amended): the matcher scans the folders in iteration order and,
for each folder, accepts on exact normalized equality or else on substring
containment before moving to the next folder; it returns the first folder
satisfying either rule (`List.find?` semantics). Exact equality takes priority
only within a single folder's test, not across the whole candidate set, so an
earlier containment match wins over a later exact match. -/
theorem claim_C3_first_match (folders : List FolderStructure) (name : String) :
    findMatchingFolder folders name =
      folders.find? (folderMatchTest (normalizeCustomerName name)) := by
  unfold findMatchingFolder
  generalize normalizeCustomerName name = nc
  induction folders with
  | nil => rfl
  | cons f rest ih =>
    simp only [findMatchingFolderAux]
    by_cases h1 : normalizeCustomerName f.customerName = nc
    · rw [if_pos h1, List.find?_cons_of_pos _ (by simp [folderMatchTest, h1])]
    · rw [if_neg h1]
      by_cases h2 : (containsSub (normalizeCustomerName f.customerName).toList nc.toList ||
          containsSub nc.toList (normalizeCustomerName f.customerName).toList) = true
      · rw [if_pos h2, List.find?_cons_of_pos _ ?hpos]
        case hpos =>
          simp only [folderMatchTest, Bool.or_eq_true, decide_eq_true_eq]
          exact Or.inr (by simpa using h2)
      · rw [if_neg h2, List.find?_cons_of_neg _ ?hneg, ih]
        case hneg =>
          intro hc
          simp only [folderMatchTest, Bool.or_eq_true, decide_eq_true_eq] at hc
          rcases hc with hc | hc
          · exact h1 hc
          · exact h2 (by simpa using hc)

/-! ## Claim C2 -/

theorem markNoFolder_cons (idx : Nat) (rest : List Nat) (rows : List Row) :
    markNoFolder (idx :: rest) rows =
      markNoFolder rest
        (if getCol (rows.getD idx default) "CCN Actual" = "" then
          updAt rows idx "FOLDER_NOT_FOUND" "Fail"
        else rows) := by
  unfold markNoFolder
  rw [List.foldl_cons]

theorem length_markNoFolder (rowIndices : List Nat) (rows : List Row) :
    (markNoFolder rowIndices rows).length = rows.length := by
  induction rowIndices generalizing rows with
  | nil => rfl
  | cons idx rest ih =>
    rw [markNoFolder_cons]
    by_cases h : getCol (rows.getD idx default) "CCN Actual" = ""
    · rw [if_pos h, ih, length_updAt]
    · rw [if_neg h, ih]

/-- The effect of the no-folder branch on each row: rows of the customer whose
`CCN Actual` is still empty receive the sentinel; every other row is
untouched. -/
theorem markNoFolder_getD (rowIndices : List Nat) (rows : List Row)
    (hb : ∀ j ∈ rowIndices, j < rows.length) (i : Nat) :
    (markNoFolder rowIndices rows).getD i default =
      if i ∈ rowIndices ∧ getCol (rows.getD i default) "CCN Actual" = "" then
        setActual (rows.getD i default) "FOLDER_NOT_FOUND" "Fail"
      else rows.getD i default := by
  induction rowIndices generalizing rows with
  | nil => simp [markNoFolder]
  | cons idx rest ih =>
    rw [markNoFolder_cons]
    by_cases hEmpty : getCol (rows.getD idx default) "CCN Actual" = ""
    · rw [if_pos hEmpty]
      have hb' : ∀ j ∈ rest, j < (updAt rows idx "FOLDER_NOT_FOUND" "Fail").length := by
        intro j hj
        rw [length_updAt]
        exact hb j (List.mem_cons_of_mem _ hj)
      rw [ih _ hb']
      by_cases hi : i = idx
      · subst hi
        have hlt : i < rows.length := hb i (List.mem_cons_self _ _)
        rw [getD_updAt_self _ _ _ _ hlt]
        rw [if_neg ?hcond, if_pos ⟨List.mem_cons_self _ _, hEmpty⟩]
        case hcond =>
          rintro ⟨-, habs⟩
          rw [getCol_setActual_ccn] at habs
          exact absurd habs (by decide)
      · rw [getD_updAt_ne _ _ _ _ _ hi]
        have hmem : (i ∈ idx :: rest) ↔ (i ∈ rest) := by
          constructor
          · intro hm
            rcases List.mem_cons.mp hm with h | h
            · exact absurd h hi
            · exact h
          · exact fun hm => List.mem_cons_of_mem _ hm
        by_cases hcase : i ∈ rest ∧ getCol (rows.getD i default) "CCN Actual" = ""
        · rw [if_pos hcase, if_pos ⟨hmem.mpr hcase.1, hcase.2⟩]
        · rw [if_neg hcase, if_neg (fun hc => hcase ⟨hmem.mp hc.1, hc.2⟩)]
    · rw [if_neg hEmpty, ih _ (fun j hj => hb j (List.mem_cons_of_mem _ hj))]
      by_cases hi : i = idx
      · subst hi
        rw [if_neg (fun hc => hEmpty hc.2), if_neg (fun hc => hEmpty hc.2)]
      · have hmem : (i ∈ idx :: rest) ↔ (i ∈ rest) := by
          constructor
          · intro hm
            rcases List.mem_cons.mp hm with h | h
            · exact absurd h hi
            · exact h
          · exact fun hm => List.mem_cons_of_mem _ hm
        by_cases hcase : i ∈ rest ∧ getCol (rows.getD i default) "CCN Actual" = ""
        · rw [if_pos hcase, if_pos ⟨hmem.mpr hcase.1, hcase.2⟩]
        · rw [if_neg hcase, if_neg (fun hc => hcase ⟨hmem.mp hc.1, hc.2⟩)]

/-- Claim C2: when the Folder Matcher finds no folder (or an empty folder) for
a customer, the customer step writes the `FOLDER_NOT_FOUND` sentinel and a
failed validation onto every one of the customer's rows that does not yet hold
an actual card number, and the run simply continues folding over the remaining
customers — a missing folder never halts the run. -/
theorem claim_C2_folder_not_found (o : Oracles) (folders : List FolderStructure)
    (rows : List Row) (name : String) (rowIndices : List Nat)
    (hNo : findMatchingFolder folders name = none ∨
      ∃ f, findMatchingFolder folders name = some f ∧ f.files.length = 0)
    (hb : ∀ j ∈ rowIndices, j < rows.length) :
    (∀ idx ∈ rowIndices, getCol (rows.getD idx default) "CCN Actual" = "" →
      getCol ((customerStep o folders rows (name, rowIndices)).getD idx default) "CCN Actual" =
          "FOLDER_NOT_FOUND" ∧
        getCol ((customerStep o folders rows (name, rowIndices)).getD idx default)
            "Luhn Test Actual" = "Fail") ∧
    ∀ (rest : List (String × List Nat)) (rs : List Row),
      ((name, rowIndices) :: rest).foldl (customerStep o folders) rs =
        rest.foldl (customerStep o folders) (customerStep o folders rs (name, rowIndices)) := by
  have hstep : customerStep o folders rows (name, rowIndices) = markNoFolder rowIndices rows := by
    rcases hNo with h | ⟨f, hf, hlen⟩
    · simp only [customerStep]
      rw [h]
    · simp only [customerStep]
      rw [hf]
      simp [hlen]
  refine ⟨?_, fun rest rs => List.foldl_cons ..⟩
  intro idx hmem hempty
  rw [hstep, markNoFolder_getD rowIndices rows hb idx, if_pos ⟨hmem, hempty⟩]
  exact ⟨getCol_setActual_ccn .., getCol_setActual_luhn ..⟩

/-- Claim C2 witness: a customer with no folder at all gets the sentinel on
its (only, still-empty) row. -/
theorem claim_C2_witness :
    (findMatchingFolder ([] : List FolderStructure) "A" = none ∧
      getCol (rowsNoFolder.getD 0 default) "CCN Actual" = "") ∧
    getCol ((customerStep oTriv [] rowsNoFolder ("A", [0])).getD 0 default) "CCN Actual" =
      "FOLDER_NOT_FOUND" := by
  refine ⟨⟨rfl, by decide⟩, ?_⟩
  exact ((claim_C2_folder_not_found oTriv [] rowsNoFolder "A" [0] (Or.inl rfl)
    (by intro j hj; simp at hj; subst hj; decide)).1 0 (by decide) (by decide)).1

/-! ## Claim C4 -/

/-- Claim C4: when the categorization/grouping call fails, or succeeds with
zero pairs, the orchestrator degrades to one pair per file (front = the
filename, back = empty) instead of aborting the customer; the pair list then
has exactly one entry per folder file, and every such degenerate pair locates
its file and produces an outcome (rather than being skipped as missing). -/
theorem claim_C4_degradation (o : Oracles) (files : List String)
    (h : o.grouping files = none ∨ o.grouping files = some []) :
    computeCardPairs (o.grouping files) files = degradedPairs files ∧
    (computeCardPairs (o.grouping files) files).length = files.length ∧
    ∀ pair ∈ computeCardPairs (o.grouping files) files,
      pair.back = "" ∧ pair.front ∈ files ∧ (pairOutcome o files pair).isSome = true := by
  have hdeg : computeCardPairs (o.grouping files) files = degradedPairs files := by
    rcases h with h | h <;> simp [computeCardPairs, h]
  refine ⟨hdeg, ?_, ?_⟩
  · rw [hdeg]
    simp [degradedPairs]
  · rw [hdeg]
    intro pair hmem
    unfold degradedPairs at hmem
    rw [List.mem_map] at hmem
    obtain ⟨f, hf, rfl⟩ := hmem
    refine ⟨rfl, hf, ?_⟩
    have hsingle : (if f ≠ "" then f else ("" : String)) = f := by
      by_cases hf0 : f = ""
      · simp [hf0]
      · simp [hf0]
    have hff : (findFile files f).isSome := by
      unfold findFile
      rw [List.find?_isSome]
      exact ⟨f, hf, by simp⟩
    obtain ⟨sf, hsf⟩ := Option.isSome_iff_exists.mp hff
    simp only [pairOutcome]
    rw [if_neg (by simp)]
    rw [hsingle, hsf]
    rfl

/-- Claim C4 witness: a 3-image folder whose grouping fails entirely still
yields exactly 3 per-file pairs. -/
theorem claim_C4_witness :
    (oC4.grouping ["a.jpg", "b.jpg", "c.jpg"] = none ∨
      oC4.grouping ["a.jpg", "b.jpg", "c.jpg"] = some []) ∧
    (computeCardPairs (oC4.grouping ["a.jpg", "b.jpg", "c.jpg"]) ["a.jpg", "b.jpg", "c.jpg"]).length
      = 3 := by
  refine ⟨Or.inl rfl, ?_⟩
  exact (claim_C4_degradation oC4 ["a.jpg", "b.jpg", "c.jpg"] (Or.inl rfl)).2.1

/-! ## Claim C5 -/

/-- Claim C5: when OCR on a composited front/back pair fails, the orchestrator
retries the front image alone, then the back image alone, in that order,
accepting the first successful result (which `sendToOCR` guarantees to be a
non-empty digit string); if both retries also fail, the recorded outcome is
the `NOT_FOUND` sentinel with failed validation. -/
theorem claim_C5_retry_chain (o : Oracles) (frontFile backFile : String)
    (hMerged : sendToOCR (o.rawMerged frontFile backFile) = none) :
    (∀ c, sendToOCR (o.rawSingle frontFile) = some c →
      ocrMergedWithRetry o frontFile backFile =
          (c, if luhn_validate c then "Pass" else "Fail") ∧ c ≠ "") ∧
    (sendToOCR (o.rawSingle frontFile) = none →
      ∀ c, sendToOCR (o.rawSingle backFile) = some c →
        ocrMergedWithRetry o frontFile backFile =
            (c, if luhn_validate c then "Pass" else "Fail") ∧ c ≠ "") ∧
    (sendToOCR (o.rawSingle frontFile) = none → sendToOCR (o.rawSingle backFile) = none →
      ocrMergedWithRetry o frontFile backFile = ("NOT_FOUND", "Fail")) := by
  refine ⟨?_, ?_, ?_⟩
  · intro c hc
    obtain ⟨hne, htrim⟩ := sendToOCR_some _ _ hc
    have htrimne : jsTrim c ≠ "" := by rw [htrim]; exact hne
    refine ⟨?_, hne⟩
    unfold ocrMergedWithRetry
    rw [hMerged, hc]
    simp [hne, htrimne]
  · intro hf c hc
    obtain ⟨hne, htrim⟩ := sendToOCR_some _ _ hc
    have htrimne : jsTrim c ≠ "" := by rw [htrim]; exact hne
    refine ⟨?_, hne⟩
    unfold ocrMergedWithRetry
    rw [hMerged, hf, hc]
    simp [hne, htrimne]
  · intro hf hb
    unfold ocrMergedWithRetry
    rw [hMerged, hf, hb]
    simp

/-- Claim C5 witness: the merged call fails, the front image alone yields a
valid Visa number, and the retry chain records it with a passed validation. -/
theorem claim_C5_witness :
    sendToOCR (oC5.rawMerged "front.jpg" "back.jpg") = none ∧
    sendToOCR (oC5.rawSingle "front.jpg") = some "4111111111111111" ∧
    ocrMergedWithRetry oC5 "front.jpg" "back.jpg" = ("4111111111111111", "Pass") := by
  refine ⟨rfl, by decide, ?_⟩
  have h := ((claim_C5_retry_chain oC5 "front.jpg" "back.jpg" rfl).1
    "4111111111111111" (by decide)).1
  rw [h]
  decide

/-! ## Claim C1 -/

theorem framePres_ite_updAt (rows : List Row) (cond : Prop) [Decidable cond]
    (idx : Nat) (c l : String) :
    framePres rows (if cond then updAt rows idx c l else rows) := by
  by_cases h : cond
  · rw [if_pos h]
    exact framePres_updAt _ _ _ _
  · rw [if_neg h]
    exact framePres_refl _

theorem framePres_markNoFolder (l : List Nat) (rows : List Row) :
    framePres rows (markNoFolder l rows) := by
  unfold markNoFolder
  exact framePres_foldl (fun x => x) _ (fun a b => framePres_ite_updAt _ _ _ _ _) l rows

theorem framePres_reconcileExact (rows : List Row) (rowIndices : List Nat)
    (matchFilenames : List String) (c l : String) :
    framePres rows (reconcileExact rows rowIndices matchFilenames c l).1 := by
  unfold reconcileExact
  refine framePres_foldl Prod.fst _ ?_ rowIndices (rows, [])
  intro a b
  by_cases hc : matchFilenames.any
      (fun m => normalizeForComparison m =
        normalizeForComparison (getCol (a.1.getD b default) "filename"))
  · simp only [hc, if_true]
    exact framePres_updAt _ _ _ _
  · simp only [hc]
    exact framePres_refl _

theorem framePres_reconcileFallback (c l : String) (matchLen : Nat) :
    ∀ (idxs updatedIdx : List Nat) (count : Nat) (rows : List Row),
      framePres rows (reconcileFallback c l matchLen updatedIdx count rows idxs)
  | [], _, _, _ => framePres_refl _
  | idx :: rest, updatedIdx, count, rows => by
    rw [reconcileFallback]
    by_cases hc : getCol (rows.getD idx default) "CCN Actual" = "" &&
        !updatedIdx.contains idx
    · rw [if_pos hc]
      by_cases hb : (matchLen = 1 || count + 1 ≥ 2 : Bool)
      · rw [if_pos hb]
        exact framePres_updAt _ _ _ _
      · rw [if_neg hb]
        exact framePres_trans (framePres_updAt _ _ _ _)
          (framePres_reconcileFallback c l matchLen rest _ _ _)
    · rw [if_neg hc]
      exact framePres_reconcileFallback c l matchLen rest _ _ _

theorem framePres_reconcileOutcome (rows : List Row) (rowIndices : List Nat)
    (matchFilenames : List String) (c l : String) :
    framePres rows (reconcileOutcome rows rowIndices matchFilenames c l) := by
  unfold reconcileOutcome
  by_cases hc : (reconcileExact rows rowIndices matchFilenames c l).2.length = 0
  · simp only [hc, if_true]
    exact framePres_trans (framePres_reconcileExact _ _ _ _ _) (framePres_reconcileFallback _ _ _ _ _ _ _)
  · simp only [hc, if_false]
    exact framePres_reconcileExact _ _ _ _ _

theorem framePres_processPairMissing (rowIndices : List Nat) (rows : List Row)
    (pair : CreditCardPair) :
    framePres rows (processPairMissing rowIndices rows pair) := by
  unfold processPairMissing
  by_cases hc : pair.front ≠ "" && pair.back ≠ ""
  · rw [if_pos hc]
    exact framePres_foldl (fun x => x) _ (fun a b => framePres_ite_updAt _ _ _ _ _) rowIndices rows
  · rw [if_neg hc]
    exact framePres_foldl (fun x => x) _ (fun a b => framePres_ite_updAt _ _ _ _ _) rowIndices rows

theorem framePres_processPair (o : Oracles) (files : List String) (rowIndices : List Nat)
    (rows : List Row) (pair : CreditCardPair) :
    framePres rows (processPair o files rowIndices rows pair) := by
  cases hpo : pairOutcome o files pair with
  | none =>
    simp only [processPair, hpo]
    exact framePres_processPairMissing _ _ _
  | some out =>
    obtain ⟨c1, l1, mf⟩ := out
    simp only [processPair, hpo]
    exact framePres_reconcileOutcome _ _ _ _ _

theorem framePres_processUngrouped (o : Oracles) (files : List String)
    (cardPairs : List CreditCardPair) (rowIndices : List Nat) (rows : List Row) :
    framePres rows (processUngrouped o files cardPairs rowIndices rows) := by
  unfold processUngrouped
  refine framePres_foldl (fun x => x) _ ?_ _ rows
  intro rs file
  refine framePres_foldl (fun x => x) _ ?_ rowIndices rs
  intro rs2 idx
  by_cases h1 : normalizeForComparison (getCol (rs2.getD idx default) "filename") =
      normalizeForComparison file
  · rw [if_pos h1]
    exact framePres_ite_updAt _ _ _ _ _
  · rw [if_neg h1]
    exact framePres_refl _

theorem framePres_processSingle (o : Oracles) (file : String) (rowIndices : List Nat)
    (rows : List Row) :
    framePres rows (processSingle o file rowIndices rows) := by
  simp only [processSingle]
  have h1 : ∀ init : List Row × Bool, framePres init.1
      (rowIndices.foldl
        (fun (acc : List Row × Bool) idx =>
          if normalizeForComparison (getCol (acc.1.getD idx default) "filename") =
              normalizeForComparison file then
            (updAt acc.1 idx (ocrSingleFile o file).1 (ocrSingleFile o file).2, true)
          else acc)
        init).1 := by
    intro init
    refine framePres_foldl Prod.fst _ ?_ rowIndices init
    intro a b
    by_cases hc : normalizeForComparison (getCol (a.1.getD b default) "filename") =
        normalizeForComparison file
    · rw [if_pos hc]
      exact framePres_updAt _ _ _ _
    · rw [if_neg hc]
      exact framePres_refl _
  by_cases h2 : (rowIndices.foldl
      (fun (acc : List Row × Bool) idx =>
        if normalizeForComparison (getCol (acc.1.getD idx default) "filename") =
            normalizeForComparison file then
          (updAt acc.1 idx (ocrSingleFile o file).1 (ocrSingleFile o file).2, true)
        else acc)
      (rows, false)).2
  · rw [if_pos h2]
    exact h1 (rows, false)
  · rw [if_neg h2]
    cases rowIndices with
    | nil => exact h1 (rows, false)
    | cons idx rest =>
      exact framePres_trans (h1 (rows, false)) (framePres_updAt _ _ _ _)

theorem framePres_processFolderCustomer (o : Oracles) (folder : FolderStructure)
    (rowIndices : List Nat) (rows : List Row) :
    framePres rows (processFolderCustomer o folder rowIndices rows) := by
  unfold processFolderCustomer
  by_cases hc : folder.files.length = 1
  · rw [if_pos hc]
    exact framePres_processSingle _ _ _ _
  · rw [if_neg hc]
    exact framePres_trans
      (framePres_foldl (fun x => x) _ (fun a b => framePres_processPair _ _ _ _ _) _ rows)
      (framePres_processUngrouped _ _ _ _ _)

theorem framePres_customerStep (o : Oracles) (folders : List FolderStructure)
    (rows : List Row) (cg : String × List Nat) :
    framePres rows (customerStep o folders rows cg) := by
  cases hm : findMatchingFolder folders cg.1 with
  | none =>
    simp only [customerStep, hm]
    exact framePres_markNoFolder _ _
  | some folder =>
    simp only [customerStep, hm]
    by_cases hc : folder.files.length = 0
    · rw [if_pos hc]
      exact framePres_markNoFolder _ _
    · rw [if_neg hc]
      exact framePres_processFolderCustomer _ _ _ _

theorem framePres_processImages (o : Oracles) (folders : List FolderStructure)
    (rows : List Row) :
    framePres rows (processImages o folders rows) := by
  unfold processImages
  exact framePres_foldl (fun x => x) _ (fun a b => framePres_customerStep _ _ _ _) _ rows

/-- Claim C1 counterexample: a column the pipeline does not understand does
not pass through to the exported CSV. A parsed row carries `Notes = "ZZZ"`;
after a full (trivially failing) processing run, the generated CSV contains
only the six known columns and the value `"ZZZ"` (indeed the character `Z`)
appears nowhere in the output. -/
theorem claim_C1_counterexample :
    getCol ((parseCSV csvInputC1).getD 0 default) "Notes" = "ZZZ" ∧
    generateCSV (processImages oTriv [] (parseCSV csvInputC1)) =
      "Customer name,filename,CCN Expected,CCN Actual,Luhn test Expected,Luhn Test Actual\nA,f.jpg,1,2,3,4" ∧
    ((generateCSV (processImages oTriv [] (parseCSV csvInputC1))).toList.contains 'Z') = false := by
  refine ⟨by decide, by decide, by decide⟩

/-- Claim C1 (amended): during processing, only the `CCN Actual` and
`Luhn Test Actual` columns are ever written — for every input row set, oracle
behaviour and folder set, every other column of every row (including columns
the pipeline does not understand) is carried through `processImages`
unchanged. The export step, however, serializes only the six known columns,
so unknown columns are dropped at export rather than passed through (see the
counterexample). -/
theorem claim_C1_frame (o : Oracles) (folders : List FolderStructure) (rows : List Row)
    (i : Nat) (k : String) (h1 : k ≠ "CCN Actual") (h2 : k ≠ "Luhn Test Actual") :
    getCol ((processImages o folders rows).getD i default) k =
      getCol (rows.getD i default) k :=
  framePres_processImages o folders rows i k h1 h2

/-- Claim C1 witness: the frame theorem instantiated at the no-folder run on
a concrete row: the `filename` column is untouched. -/
theorem claim_C1_witness :
    ("filename" ≠ "CCN Actual" ∧ "filename" ≠ "Luhn Test Actual") ∧
    getCol ((processImages oTriv [] rowsNoFolder).getD 0 default) "filename" =
      getCol (rowsNoFolder.getD 0 default) "filename" :=
  ⟨⟨by decide, by decide⟩,
    claim_C1_frame oTriv [] rowsNoFolder 0 "filename" (by decide) (by decide)⟩

/-! ## Claim C9 -/

/-- Claim C9 counterexample: with the grouping of `oC9`, the first outcome
(the single pair for `a.jpg`) populates the customer's row; the second
outcome (the merged pair, which references `a.jpg` again) then overwrites it
through the exact filename-match path — so a row already populated by a
previous outcome for the same customer is overwritten by a later outcome,
both pair-by-pair and through the whole per-customer processing. -/
theorem claim_C9_counterexample :
    getCol (rowsC9.getD 0 default) "CCN Actual" = "" ∧
    getCol ((processPair oC9 ["a.jpg", "b.jpg"] [0] rowsC9
        { front := "a.jpg", back := "" }).getD 0 default) "CCN Actual" =
      "4111111111111111" ∧
    getCol ((processPair oC9 ["a.jpg", "b.jpg"] [0]
        (processPair oC9 ["a.jpg", "b.jpg"] [0] rowsC9 { front := "a.jpg", back := "" })
        { front := "a.jpg", back := "b.jpg" }).getD 0 default) "CCN Actual" =
      "5105105105105100" ∧
    getCol ((processFolderCustomer oC9
        { folderName := "A_1a2b3c4d", customerName := "A", files := ["a.jpg", "b.jpg"] }
        [0] rowsC9).getD 0 default) "CCN Actual" = "5105105105105100" := by
  refine ⟨by decide, by decide, by decide, by decide⟩

theorem reconcileExact_fold_pres (matchFilenames : List String) (c l : String) (i : Nat) :
    ∀ (idxs : List Nat) (acc : List Row × List Nat),
      (∀ m ∈ matchFilenames,
        normalizeForComparison m ≠
          normalizeForComparison (getCol (acc.1.getD i default) "filename")) →
      ((idxs.foldl
        (fun acc idx =>
          if matchFilenames.any
              (fun m => normalizeForComparison m =
                normalizeForComparison (getCol (acc.1.getD idx default) "filename")) then
            (updAt acc.1 idx c l, acc.2 ++ [idx])
          else acc)
        acc).1.getD i default) = acc.1.getD i default
  | [], _, _ => rfl
  | idx :: rest, acc, h => by
    rw [List.foldl_cons]
    by_cases hc : matchFilenames.any
        (fun m => normalizeForComparison m =
          normalizeForComparison (getCol (acc.1.getD idx default) "filename")) = true
    · have hidx : idx ≠ i := by
        intro hE
        subst hE
        rw [List.any_eq_true] at hc
        obtain ⟨m, hm, hmeq⟩ := hc
        exact h m hm (by simpa using hmeq)
      rw [if_pos hc]
      have hpres : (updAt acc.1 idx c l).getD i default = acc.1.getD i default :=
        getD_updAt_ne _ _ _ _ _ (fun hE => hidx hE.symm)
      rw [reconcileExact_fold_pres matchFilenames c l i rest _
        (fun m hm => by rw [hpres]; exact h m hm)]
      exact hpres
    · rw [if_neg hc]
      exact reconcileExact_fold_pres matchFilenames c l i rest acc h

theorem reconcileFallback_pres (c l : String) (matchLen : Nat) (i : Nat) :
    ∀ (idxs updatedIdx : List Nat) (count : Nat) (rows : List Row),
      getCol (rows.getD i default) "CCN Actual" ≠ "" →
      (reconcileFallback c l matchLen updatedIdx count rows idxs).getD i default =
        rows.getD i default
  | [], _, _, _, _ => rfl
  | idx :: rest, updatedIdx, count, rows, h => by
    rw [reconcileFallback]
    by_cases hc : (getCol (rows.getD idx default) "CCN Actual" = "" &&
        !updatedIdx.contains idx : Bool) = true
    · have hidx : idx ≠ i := by
        intro hE
        subst hE
        rw [Bool.and_eq_true] at hc
        exact h (by simpa using hc.1)
      rw [if_pos hc]
      have hpres : (updAt rows idx c l).getD i default = rows.getD i default :=
        getD_updAt_ne _ _ _ _ _ (fun hE => hidx hE.symm)
      by_cases hb : (matchLen = 1 || count + 1 ≥ 2 : Bool) = true
      · rw [if_pos hb]
        exact hpres
      · rw [if_neg hb]
        rw [reconcileFallback_pres c l matchLen i rest _ _ _ (by rw [hpres]; exact h)]
        exact hpres
    · rw [if_neg hc]
      exact reconcileFallback_pres c l matchLen i rest _ _ _ h

/-- Claim C9 (amended): during a single customer's write-back, a row that
already holds an actual card number is protected only outside the exact
filename-match path: if none of the outcome's filenames matches the row's
filename, the row is never touched (in particular the fallback-to-first-empty-
row pass never overwrites a populated row). When a later outcome's filename
does match the row, the exact path overwrites it — last write wins (see the
counterexample). -/
theorem claim_C9_no_overwrite_outside_exact (rows : List Row) (rowIndices : List Nat)
    (matchFilenames : List String) (c l : String) (i : Nat)
    (hfull : getCol (rows.getD i default) "CCN Actual" ≠ "")
    (hname : ∀ m ∈ matchFilenames,
      normalizeForComparison m ≠
        normalizeForComparison (getCol (rows.getD i default) "filename")) :
    (reconcileOutcome rows rowIndices matchFilenames c l).getD i default =
      rows.getD i default := by
  unfold reconcileOutcome
  have hex : (reconcileExact rows rowIndices matchFilenames c l).1.getD i default =
      rows.getD i default := by
    unfold reconcileExact
    exact reconcileExact_fold_pres matchFilenames c l i rowIndices (rows, []) hname
  by_cases hc : (reconcileExact rows rowIndices matchFilenames c l).2.length = 0
  · simp only [hc, if_true]
    rw [reconcileFallback_pres c l matchFilenames.length i rowIndices [] 0 _
      (by rw [hex]; exact hfull)]
    exact hex
  · simp only [hc, if_false]
    exact hex

/-- Claim C9 witness: a populated row whose filename matches no outcome
filename is left exactly as it was by the write-back. -/
theorem claim_C9_witness :
    (getCol (rowsC9W.getD 0 default) "CCN Actual" ≠ "" ∧
      ∀ m ∈ ["y.jpg"], normalizeForComparison m ≠
        normalizeForComparison (getCol (rowsC9W.getD 0 default) "filename")) ∧
    (reconcileOutcome rowsC9W [0] ["y.jpg"] "2222" "Fail").getD 0 default =
      rowsC9W.getD 0 default := by
  refine ⟨⟨by decide, by decide⟩, ?_⟩
  exact claim_C9_no_overwrite_outside_exact rowsC9W [0] ["y.jpg"] "2222" "Fail" 0
    (by decide) (by decide)

/-! ## Claim C10 -/

/-- Structure of the customer grouping after scanning the first `n` rows:
each group's index list is exactly the indices below `n` whose raw
`Customer name` equals the group's key, every scanned index belongs to some
group, and every group key is the raw name of some scanned row. -/
theorem groupsUpTo_spec (rows : List Row) :
    ∀ n : Nat,
      (∀ g ∈ groupsUpTo rows n, ∀ k,
        k ∈ g.2 ↔ (k < n ∧ getCol (rows.getD k default) "Customer name" = g.1)) ∧
      (∀ k, k < n →
        ∃ g ∈ groupsUpTo rows n, g.1 = getCol (rows.getD k default) "Customer name") ∧
      (∀ g ∈ groupsUpTo rows n,
        ∃ k', k' < n ∧ getCol (rows.getD k' default) "Customer name" = g.1)
  | 0 => by
    refine ⟨?_, ?_, ?_⟩
    · intro g hg
      simp [groupsUpTo] at hg
    · intro k hk
      omega
    · intro g hg
      simp [groupsUpTo] at hg
  | n + 1 => by
    obtain ⟨ih1, ih2, ih3⟩ := groupsUpTo_spec rows n
    have hunfold : groupsUpTo rows (n + 1) =
        addToGroups (groupsUpTo rows n) (getCol (rows.getD n default) "Customer name") n := by
      unfold groupsUpTo
      rw [List.range_succ, List.foldl_append, List.foldl_cons, List.foldl_nil]
    rw [hunfold]
    by_cases hany : (groupsUpTo rows n).any
        (fun g => g.1 = getCol (rows.getD n default) "Customer name") = true
    · refine ⟨?_, ?_, ?_⟩
      · intro g' hg' k
        unfold addToGroups at hg'
        rw [if_pos hany, List.mem_map] at hg'
        obtain ⟨g, hg, rfl⟩ := hg'
        by_cases hgk : g.1 = getCol (rows.getD n default) "Customer name"
        · rw [if_pos hgk]
          simp only [List.mem_append, List.mem_singleton]
          constructor
          · rintro (hk | rfl)
            · have hk' := (ih1 g hg k).mp hk
              exact ⟨by omega, hk'.2⟩
            · exact ⟨by omega, hgk.symm⟩
          · rintro ⟨hk, hname⟩
            by_cases hkn : k = n
            · exact Or.inr hkn
            · exact Or.inl ((ih1 g hg k).mpr ⟨by omega, hname⟩)
        · rw [if_neg hgk]
          constructor
          · intro hk
            have hk' := (ih1 g hg k).mp hk
            exact ⟨by omega, hk'.2⟩
          · rintro ⟨hk, hname⟩
            by_cases hkn : k = n
            · subst hkn
              exact absurd hname.symm hgk
            · exact (ih1 g hg k).mpr ⟨by omega, hname⟩
      · intro k hk
        unfold addToGroups
        rw [if_pos hany]
        by_cases hkn : k = n
        · subst hkn
          rw [List.any_eq_true] at hany
          obtain ⟨g, hg, hgk⟩ := hany
          refine ⟨(g.1, g.2 ++ [k]),
            List.mem_map.mpr ⟨g, hg, by rw [if_pos (by simpa using hgk)]⟩, ?_⟩
          simpa using hgk
        · obtain ⟨g, hg, hgk⟩ := ih2 k (by omega)
          by_cases hgn : g.1 = getCol (rows.getD n default) "Customer name"
          · exact ⟨(g.1, g.2 ++ [n]), List.mem_map.mpr ⟨g, hg, by rw [if_pos hgn]⟩, hgk⟩
          · exact ⟨g, List.mem_map.mpr ⟨g, hg, by rw [if_neg hgn]⟩, hgk⟩
      · intro g' hg'
        unfold addToGroups at hg'
        rw [if_pos hany, List.mem_map] at hg'
        obtain ⟨g, hg, rfl⟩ := hg'
        obtain ⟨k', hk', hname'⟩ := ih3 g hg
        by_cases hgk : g.1 = getCol (rows.getD n default) "Customer name"
        · rw [if_pos hgk]
          exact ⟨k', by omega, hname'⟩
        · rw [if_neg hgk]
          exact ⟨k', by omega, hname'⟩
    · have hnone : ∀ g ∈ groupsUpTo rows n,
          g.1 ≠ getCol (rows.getD n default) "Customer name" := by
        intro g hg hceq
        rw [List.any_eq_true] at hany
        exact hany ⟨g, hg, by simp [hceq]⟩
      refine ⟨?_, ?_, ?_⟩
      · intro g' hg' k
        unfold addToGroups at hg'
        rw [if_neg hany, List.mem_append, List.mem_singleton] at hg'
        rcases hg' with hg | rfl
        · constructor
          · intro hk
            have hk' := (ih1 g' hg k).mp hk
            exact ⟨by omega, hk'.2⟩
          · rintro ⟨hk, hname⟩
            by_cases hkn : k = n
            · subst hkn
              exact absurd (hname ▸ hnone g' hg) (fun hf => hf rfl)
            · exact (ih1 g' hg k).mpr ⟨by omega, hname⟩
        · simp only [List.mem_singleton]
          constructor
          · rintro rfl
            exact ⟨by omega, rfl⟩
          · rintro ⟨hk, hname⟩
            by_cases hkn : k = n
            · exact hkn
            · obtain ⟨g2, hg2, hg2k⟩ := ih2 k (by omega)
              exact absurd (hg2k.trans hname) (hnone g2 hg2)
      · intro k hk
        unfold addToGroups
        rw [if_neg hany]
        by_cases hkn : k = n
        · subst hkn
          exact ⟨(getCol (rows.getD k default) "Customer name", [k]),
            List.mem_append.mpr (Or.inr (List.mem_singleton.mpr rfl)), rfl⟩
        · obtain ⟨g, hg, hgk⟩ := ih2 k (by omega)
          exact ⟨g, List.mem_append.mpr (Or.inl hg), hgk⟩
      · intro g' hg'
        unfold addToGroups at hg'
        rw [if_neg hany, List.mem_append, List.mem_singleton] at hg'
        rcases hg' with hg | rfl
        · obtain ⟨k', hk', hname'⟩ := ih3 g' hg
          exact ⟨k', by omega, hname'⟩
        · exact ⟨n, by omega, rfl⟩

/-- Claim C10: the pipeline groups spreadsheet rows into customers by exact,
unnormalized equality of the raw `Customer name` string: two row indices lie
in a common group of `groupByCustomer` exactly when their raw names are equal
as strings. Rows whose names differ only in case, underscores, hyphens or
spacing — which `normalizeCustomerName` would identify — therefore form
separate customer groups, each of which `customerStep` matches to a folder
independently via the normalized `findMatchingFolder`. -/
theorem claim_C10_raw_grouping (rows : List Row) (i j : Nat)
    (hi : i < rows.length) (hj : j < rows.length) :
    (∃ g ∈ groupByCustomer rows, i ∈ g.2 ∧ j ∈ g.2) ↔
      getCol (rows.getD i default) "Customer name" =
        getCol (rows.getD j default) "Customer name" := by
  obtain ⟨h1, h2, -⟩ := groupsUpTo_spec rows rows.length
  have hgb : groupByCustomer rows = groupsUpTo rows rows.length := rfl
  rw [hgb]
  constructor
  · rintro ⟨g, hg, hig, hjg⟩
    have hi' := (h1 g hg i).mp hig
    have hj' := (h1 g hg j).mp hjg
    rw [hi'.2, hj'.2]
  · intro heq
    obtain ⟨g, hg, hkey⟩ := h2 i hi
    refine ⟨g, hg, ?_, ?_⟩
    · exact (h1 g hg i).mpr ⟨hi, hkey.symm⟩
    · exact (h1 g hg j).mpr ⟨hj, by rw [← heq]; exact hkey.symm⟩

/-- Claim C10 witness: two rows named `"john doe"` and `"JOHN DOE"` normalize
to the same customer name, yet are never merged into one group. -/
theorem claim_C10_witness :
    ((0 : Nat) < rowsC10.length ∧ (1 : Nat) < rowsC10.length) ∧
    normalizeCustomerName (getCol (rowsC10.getD 0 default) "Customer name") =
      normalizeCustomerName (getCol (rowsC10.getD 1 default) "Customer name") ∧
    getCol (rowsC10.getD 0 default) "Customer name" ≠
      getCol (rowsC10.getD 1 default) "Customer name" ∧
    ¬ (∃ g ∈ groupByCustomer rowsC10, 0 ∈ g.2 ∧ 1 ∈ g.2) := by
  refine ⟨⟨by decide, by decide⟩, by decide, by decide, ?_⟩
  intro hc
  exact (by decide : getCol (rowsC10.getD 0 default) "Customer name" ≠
      getCol (rowsC10.getD 1 default) "Customer name")
    ((claim_C10_raw_grouping rowsC10 0 1 (by decide) (by decide)).mp hc)

end CCV
